import Mathlib

/-!
Verification of the MPC control pipeline implemented in src/main.cpp of
CarND-Controls-MPC-P10.  The per-tick telemetry handler is shallowly embedded
over exact reals: the latency prediction, the map-to-body coordinate
transform, the polynomial fit (polyfit / polyeval), the error extraction
(cte / epsi), the reference-path sampling and the outbound steering
normalization.  Machine doubles are modelled as real numbers.
-/

open Matrix

/-- Conversion from degrees to radians, main.cpp line 17. -/
noncomputable def deg2rad (x : ℝ) : ℝ := x * Real.pi / 180

/-- Distance from the center of mass to the front axle, main.cpp line 96. -/
noncomputable def Lf : ℝ := 2.67

/-- The fixed actuation latency used by the handler, main.cpp line 100. -/
noncomputable def latency : ℝ := 0.1

/-- Evaluation of a polynomial from its coefficient vector, main.cpp
lines 36-42: the loop accumulates coeffs[i] * pow(x, i). -/
noncomputable def polyeval {n : ℕ} (coeffs : Fin n → ℝ) (x : ℝ) : ℝ :=
  ∑ i : Fin n, coeffs i * x ^ (i : ℕ)

/-- Latency prediction of the vehicle state, main.cpp lines 101-104: the four
assignments are executed in source order (px, py, psi, v); each right-hand
side only reads variables that have not yet been reassigned, so the lets read
the pre-update values exactly as the C++ does.  Returns (px, py, psi, v). -/
noncomputable def latencyPredict (px py psi v steer throttle dt : ℝ) :
    ℝ × ℝ × ℝ × ℝ :=
  let px2 := px + v * Real.cos psi * dt
  let py2 := py + v * Real.sin psi * dt
  let psi2 := psi - v * steer / Lf * dt
  let v2 := v + throttle * dt
  (px2, py2, psi2, v2)

/-- Map-frame to body-frame transform of one waypoint, main.cpp lines
107-112: translate by the pose position, then rotate through minus the
heading. -/
noncomputable def transformPoint (px py psi x y : ℝ) : ℝ × ℝ :=
  let delta_x := x - px
  let delta_y := y - py
  (delta_x * Real.cos (0 - psi) - delta_y * Real.sin (0 - psi),
   delta_x * Real.sin (0 - psi) + delta_y * Real.cos (0 - psi))

/-- Algebraic inverse of the frame transform as the spec describes it: rotate
by plus the heading, then translate by the pose position. -/
noncomputable def inverseTransformPoint (px py psi x y : ℝ) : ℝ × ℝ :=
  (x * Real.cos psi - y * Real.sin psi + px,
   x * Real.sin psi + y * Real.cos psi + py)

/-- Cross-track error, main.cpp line 129: the fitted cubic evaluated at 0. -/
noncomputable def cte (coeffs : Fin 4 → ℝ) : ℝ := polyeval coeffs 0

/-- Heading error, main.cpp line 131: minus the arctangent of the linear
coefficient of the fitted cubic. -/
noncomputable def epsi (coeffs : Fin 4 → ℝ) : ℝ := - Real.arctan (coeffs 1)

/-- Steering value placed in the outbound message, main.cpp line 176: the
solver steering divided by deg2rad(25) * Lf. -/
noncomputable def outputSteering (steerCmd : ℝ) : ℝ :=
  steerCmd / (deg2rad 25 * Lf)

/-- Spacing of the reference-path samples, main.cpp line 150. -/
noncomputable def poly_inc : ℝ := 2.5

/-- Loop bound of the reference-path sampling, main.cpp line 151. -/
def num_points : ℕ := 25

/-- Reference-path samples sent for visualization, main.cpp lines 147-156:
the loop runs i = 1, ..., num_points - 1 and pushes the pair
(poly_inc * i, polyeval coeffs (poly_inc * i)) at each step. -/
noncomputable def nextVals (coeffs : Fin 4 → ℝ) : List (ℝ × ℝ) :=
  (List.range' 1 (num_points - 1)).map
    fun i : ℕ => (poly_inc * (i : ℝ), polyeval coeffs (poly_inc * (i : ℝ)))

/-- Raw telemetry fields read from the inbound message, main.cpp lines
88-95. -/
structure RawTelemetry where
  px : ℝ
  py : ℝ
  psi : ℝ
  v : ℝ
  steer : ℝ
  throttle : ℝ

/-- Waypoint processing of the telemetry handler, main.cpp lines 99-112: the
latency prediction runs first (overwriting px, py, psi, v), and the waypoint
transform then uses the predicted pose. -/
noncomputable def tickTransformedWaypoints (t : RawTelemetry)
    (pts : List (ℝ × ℝ)) : List (ℝ × ℝ) :=
  let s := latencyPredict t.px t.py t.psi t.v t.steer t.throttle latency
  pts.map fun p => transformPoint s.1 s.2.1 s.2.2.1 p.1 p.2

/-- Modelled from the spec claim for comparison: the Frame Transformer applied
to the raw waypoints using the measured (uncompensated) pose, before any
latency compensation. -/
noncomputable def specOrderWaypoints (t : RawTelemetry)
    (pts : List (ℝ × ℝ)) : List (ℝ × ℝ) :=
  pts.map fun p => transformPoint t.px t.py t.psi p.1 p.2

/-- Latency compensation lifted to the telemetry record: the pose fields are
replaced by the predicted ones, exactly the in-place updates of main.cpp
lines 101-104. -/
noncomputable def compensateTelemetry (t : RawTelemetry) : RawTelemetry :=
  let s := latencyPredict t.px t.py t.psi t.v t.steer t.throttle latency
  { t with px := s.1, py := s.2.1, psi := s.2.2.1, v := s.2.2.2 }

/-- Entries of the design matrix built by polyfit, main.cpp lines 53-61:
column 0 is 1 and column i+1 is column i times the sample abscissa. -/
noncomputable def designEntry (x : ℝ) : ℕ → ℝ
  | 0 => 1
  | i + 1 => designEntry x i * x

/-- The design matrix A of polyfit, main.cpp lines 51-61: row j holds the
powers of xvals(j) built by the column recurrence. -/
noncomputable def designMatrix {n : ℕ} (xvals : Fin n → ℝ) (order : ℕ) :
    Matrix (Fin n) (Fin (order + 1)) ℝ :=
  Matrix.of fun j i => designEntry (xvals j) (i : ℕ)

/-- Models the Eigen call A.householderQr().solve(yvals) of main.cpp lines
63-64 over exact reals: for a design matrix of full column rank the
Householder QR solve returns the unique least-squares solution, which is
characterized by the normal equations; it is written here through them. -/
noncomputable def householderQrSolve {n p : ℕ} (A : Matrix (Fin n) (Fin p) ℝ)
    (yvals : Fin n → ℝ) : Fin p → ℝ :=
  ((Aᵀ * A)⁻¹ * Aᵀ) *ᵥ yvals

/-- Polynomial fit, main.cpp lines 47-66: build the design matrix and solve
with Householder QR.  The function body is total; the only guards in the
source are the two asserts of lines 49-50, captured separately by
polyfitAsserts. -/
noncomputable def polyfit {n : ℕ} (xvals yvals : Fin n → ℝ) (order : ℕ) :
    Fin (order + 1) → ℝ :=
  householderQrSolve (designMatrix xvals order) yvals

/-- The assert conditions of polyfit, main.cpp lines 49-50: the two input
sizes agree and 1 <= order <= xvals.size() - 1 (integer arithmetic).  They
read only the sizes, never the waypoint values, and on violation the C++
assert aborts the process; no error value is ever produced. -/
def polyfitAsserts (n m order : ℕ) : Prop :=
  n = m ∧ 1 ≤ order ∧ (order : ℤ) ≤ (n : ℤ) - 1

instance (n m order : ℕ) : Decidable (polyfitAsserts n m order) := by
  unfold polyfitAsserts; infer_instance

/-- Number of distinct waypoints among the fitted samples: the cardinality of
the set of (x, y) pairs. -/
noncomputable def distinctWaypoints {n : ℕ} (xvals yvals : Fin n → ℝ) : ℕ :=
  (Finset.univ.image fun j => (xvals j, yvals j)).card

/-- Models the Eigen Map of a waypoint buffer with hard-coded length 6,
main.cpp lines 117-120: the map reads the first six doubles of the backing
vector; when the vector holds fewer than six entries the read runs past its
end, modelled as none. -/
def mapSix (pts : List ℝ) : Option (List ℝ) :=
  if 6 ≤ pts.length then some (pts.take 6) else none

/-! Helper lemmas. -/

theorem designEntry_eq_pow (x : ℝ) (i : ℕ) : designEntry x i = x ^ i := by
  induction i with
  | zero => simp [designEntry]
  | succ i ih => rw [designEntry, ih, pow_succ]

theorem transformPoint_roundtrip (px py psi x y : ℝ) :
    inverseTransformPoint px py psi (transformPoint px py psi x y).1
      (transformPoint px py psi x y).2 = (x, y) := by
  have h := Real.sin_sq_add_cos_sq psi
  simp only [transformPoint, inverseTransformPoint, zero_sub, Real.cos_neg,
    Real.sin_neg, Prod.mk.injEq]
  constructor
  · linear_combination (x - px) * h
  · linear_combination (y - py) * h

/-- C5: the latency compensation computes exactly the single-step kinematic
bicycle update, with the last-applied steering and throttle as control
inputs; the handler instantiates the timestep with the fixed latency. -/
theorem c5_latency_bicycle_update (px py psi v steer throttle d : ℝ) :
    latencyPredict px py psi v steer throttle d =
      (px + v * Real.cos psi * d, py + v * Real.sin psi * d,
       psi - v * steer / Lf * d, v + throttle * d) := rfl

/-- C9: with zero latency the compensation is the identity on the state. -/
theorem c9_zero_latency_identity (px py psi v steer throttle : ℝ) :
    latencyPredict px py psi v steer throttle 0 = (px, py, psi, v) := by
  simp [latencyPredict]

/-- C7: the frame transform (translate by the negated pose position, then
rotate by the negated heading) followed by its algebraic inverse reproduces
every waypoint set exactly, for every pose. -/
theorem c7_transform_roundtrip (px py psi : ℝ) (pts : List (ℝ × ℝ)) :
    (pts.map fun p =>
      inverseTransformPoint px py psi (transformPoint px py psi p.1 p.2).1
        (transformPoint px py psi p.1 p.2).2) = pts := by
  have hpt : ∀ p : ℝ × ℝ,
      inverseTransformPoint px py psi (transformPoint px py psi p.1 p.2).1
        (transformPoint px py psi p.1 p.2).2 = p := by
    intro p
    simpa using transformPoint_roundtrip px py psi p.1 p.2
  simp [hpt]

/-- C6: the cross-track error is the fitted curve at x = 0, which is its
constant coefficient; the heading error is minus the arctangent of the linear
coefficient; both vanish when those coefficients vanish. -/
theorem c6_error_extraction (coeffs : Fin 4 → ℝ) :
    cte coeffs = coeffs 0 ∧
    epsi coeffs = - Real.arctan (coeffs 1) ∧
    (coeffs 0 = 0 → coeffs 1 = 0 → cte coeffs = 0 ∧ epsi coeffs = 0) := by
  have h0 : cte coeffs = coeffs 0 := by
    have e3 : ((3 : Fin 4) : ℕ) ≠ 0 := by decide
    have e2 : ((2 : Fin 4) : ℕ) ≠ 0 := by decide
    have e1 : ((1 : Fin 4) : ℕ) ≠ 0 := by decide
    norm_num [cte, polyeval, Fin.sum_univ_four, zero_pow, e1, e2, e3]
  refine ⟨h0, rfl, fun ha hb => ⟨h0.trans ha, ?_⟩⟩
  simp [epsi, hb, Real.arctan_zero]

/-- C6 witness: the error extraction at a concrete curve with zero intercept
and zero slope. -/
theorem c6_error_extraction_witness :
    cte ![0, 0, 5, 7] = 0 ∧ epsi ![0, 0, 5, 7] = 0 :=
  (c6_error_extraction ![0, 0, 5, 7]).2.2 (by simp)
    (by simp [Matrix.cons_val_one, Matrix.head_cons])

/-- C1 counterexample: a solver steering value exactly at the physical bound
deg2rad(25) is not emitted as 1, because the outbound division is by
deg2rad(25) * Lf rather than by deg2rad(25) alone. -/
theorem c1_steering_scaling_cex : outputSteering (deg2rad 25) ≠ 1 := by
  intro h
  have hpi := Real.pi_pos
  unfold outputSteering deg2rad Lf at h
  rw [div_eq_one_iff_eq (by positivity)] at h
  nlinarith [hpi]

/-- C1 amended: the emitted steering equals the solver steering divided by
max_steer and additionally by Lf, so a steering value at the bound maps to
1 / Lf instead of 1. -/
theorem c1_steering_scaling :
    (∀ s : ℝ, outputSteering s = s / deg2rad 25 / Lf) ∧
      outputSteering (deg2rad 25) = 1 / Lf := by
  have ha : deg2rad 25 ≠ 0 := by
    unfold deg2rad
    positivity
  constructor
  · intro s
    unfold outputSteering
    rw [div_div]
  · unfold outputSteering
    rw [div_mul_cancel_left₀ ha, one_div]

/-- C10: the reference-path samples are exactly the 24 points at x = 2.5 i
for i = 1, ..., 24 in increasing order of i, with y given by polyeval on the
fitted cubic, and the origin sample x = 0 is never included (every sampled x
is strictly positive). -/
theorem c10_reference_samples (coeffs : Fin 4 → ℝ) :
    nextVals coeffs =
      (List.range 24).map
        (fun j : ℕ =>
          (2.5 * ((j : ℝ) + 1), polyeval coeffs (2.5 * ((j : ℝ) + 1)))) ∧
    (nextVals coeffs).length = 24 ∧
    ∀ p ∈ nextVals coeffs, 0 < p.1 := by
  refine ⟨?_, ?_, ?_⟩
  · unfold nextVals num_points poly_inc
    norm_num
    rw [List.range'_eq_map_range, List.map_map]
    refine List.map_congr_left fun j hj => ?_
    simp only [Function.comp_apply]
    have hc : ((1 + j : ℕ) : ℝ) = (j : ℝ) + 1 := by
      push_cast
      ring
    rw [hc]
  · simp [nextVals, num_points]
  · intro p hp
    unfold nextVals num_points poly_inc at hp
    rw [List.mem_map] at hp
    obtain ⟨i, hi, rfl⟩ := hp
    rw [List.mem_range'_1] at hi
    have h1 : (1 : ℝ) ≤ (i : ℝ) := by exact_mod_cast hi.1
    norm_num
    linarith

/-- C10 witness: the first emitted sample for the zero polynomial has a
strictly positive abscissa. -/
theorem c10_reference_samples_witness :
    0 < (poly_inc * ((1 : ℕ) : ℝ),
      polyeval ![0, 0, 0, 0] (poly_inc * ((1 : ℕ) : ℝ))).1 :=
  (c10_reference_samples ![0, 0, 0, 0]).2.2 _
    (List.mem_map_of_mem _ (by decide))

/-- C2 counterexample: at the telemetry px = py = psi = steer = throttle = 0,
v = 1 with the single waypoint (0, 0), the handler's transformed waypoints
differ from the result of transforming with the measured pose, because the
handler compensates the pose first and transforms with the predicted pose. -/
theorem c2_pipeline_order_cex :
    tickTransformedWaypoints ⟨0, 0, 0, 1, 0, 0⟩ [(0, 0)] ≠
      specOrderWaypoints ⟨0, 0, 0, 1, 0, 0⟩ [(0, 0)] := by
  intro h
  simp only [tickTransformedWaypoints, specOrderWaypoints, latencyPredict,
    transformPoint, latency, Lf, List.map_cons, List.map_nil,
    List.cons.injEq, Prod.mk.injEq] at h
  norm_num [Real.cos_zero, Real.sin_zero] at h

/-- C2 amended: the handler applies the Latency Compensator first and the
Frame Transformer afterwards, rotating and translating the waypoints with the
compensated (predicted) pose: the pipeline order is raw telemetry, then
Latency Compensator, then Frame Transformer, then Reference Curve Fitter. -/
theorem c2_pipeline_order (t : RawTelemetry) (pts : List (ℝ × ℝ)) :
    tickTransformedWaypoints t pts = specOrderWaypoints (compensateTelemetry t) pts := rfl

/-- C3 counterexample: six waypoints of which only three are distinct (each of
(1,1), (2,2), (3,3) listed twice) satisfy the asserts of polyfit at order 3,
so the fit proceeds and returns coefficients; no DegenerateFit error value
exists in the code, and the asserts would abort rather than return. -/
theorem c3_degenerate_fit_cex :
    polyfitAsserts 6 6 3 ∧
      distinctWaypoints (![1, 1, 2, 2, 3, 3] : Fin 6 → ℝ)
        (![1, 1, 2, 2, 3, 3] : Fin 6 → ℝ) ≤ 3 := by
  constructor
  · exact ⟨rfl, by norm_num, by norm_num⟩
  · unfold distinctWaypoints
    have hsub : (Finset.univ.image fun j : Fin 6 =>
        ((![1, 1, 2, 2, 3, 3] : Fin 6 → ℝ) j, (![1, 1, 2, 2, 3, 3] : Fin 6 → ℝ) j)) ⊆
        {((1 : ℝ), (1 : ℝ)), ((2 : ℝ), (2 : ℝ)), ((3 : ℝ), (3 : ℝ))} := by
      intro p hp
      simp only [Finset.mem_image, Finset.mem_univ, true_and] at hp
      obtain ⟨j, rfl⟩ := hp
      fin_cases j <;> norm_num [Matrix.cons_val_succ, Matrix.cons_val_zero]
    calc (Finset.univ.image fun j : Fin 6 =>
        ((![1, 1, 2, 2, 3, 3] : Fin 6 → ℝ) j, (![1, 1, 2, 2, 3, 3] : Fin 6 → ℝ) j)).card
        ≤ ({((1 : ℝ), (1 : ℝ)), ((2 : ℝ), (2 : ℝ)), ((3 : ℝ), (3 : ℝ))} : Finset (ℝ × ℝ)).card :=
          Finset.card_le_card hsub
      _ ≤ 3 := by
          apply le_trans (Finset.card_insert_le _ _)
          have h2 := Finset.card_insert_le ((2 : ℝ), (2 : ℝ))
            ({((3 : ℝ), (3 : ℝ))} : Finset (ℝ × ℝ))
          simp only [Finset.card_singleton] at h2
          omega

/-- C3 amended: the only guard in polyfit is the pair of asserts on the raw
input sizes, which abort on violation instead of returning a recoverable
error; they hold exactly when the sizes agree and 1 <= order <= size - 1,
independent of the waypoint values, so degenerate waypoint sets with enough
entries are fitted without any error. -/
theorem c3_degenerate_fit (n m order : ℕ) :
    polyfitAsserts n m order ↔ (n = m ∧ 1 ≤ order ∧ order + 1 ≤ n) := by
  unfold polyfitAsserts
  constructor
  · rintro ⟨h1, h2, h3⟩
    exact ⟨h1, h2, by omega⟩
  · rintro ⟨h1, h2, h3⟩
    exact ⟨h1, h2, by omega⟩

/-- C4 counterexample: a telemetry message with four waypoint abscissas is a
legal input by the claim, yet the hard-coded Eigen map of six doubles reads
past the end of the buffer. -/
theorem c4_waypoint_bounds_cex :
    4 ≤ ([0, 1, 2, 3] : List ℝ).length ∧ mapSix [0, 1, 2, 3] = none := by
  constructor
  · simp
  · rfl

/-- C4 amended: the tick maps exactly six waypoints; when the supplied
sequence has exactly six points the reads are in bounds and the fit is over
all and only the supplied waypoints. -/
theorem c4_waypoint_bounds (pts : List ℝ) (h : pts.length = 6) :
    mapSix pts = some pts := by
  unfold mapSix
  rw [if_pos (le_of_eq h.symm), List.take_of_length_le (le_of_eq h)]

/-- C4 witness: a six-point sequence is read in bounds and kept whole. -/
theorem c4_waypoint_bounds_witness :
    ([0, 1, 2, 3, 4, 5] : List ℝ).length = 6 ∧
      mapSix [0, 1, 2, 3, 4, 5] = some [0, 1, 2, 3, 4, 5] :=
  ⟨rfl, c4_waypoint_bounds [0, 1, 2, 3, 4, 5] rfl⟩

/-- C8: fitting order k to exactly k + 1 points with pairwise distinct
abscissas interpolates: the fitted coefficients, evaluated with polyeval at
each input x, reproduce the corresponding input y exactly. -/
theorem c8_fit_exactness (k : ℕ) (xvals yvals : Fin (k + 1) → ℝ)
    (hx : Function.Injective xvals) (i : Fin (k + 1)) :
    polyeval (polyfit xvals yvals k) (xvals i) = yvals i := by
  have hdet : IsUnit (designMatrix xvals k).det := by
    have hA : designMatrix xvals k = Matrix.vandermonde xvals := by
      ext j i2
      simp [designMatrix, designEntry_eq_pow]
    rw [hA]
    exact isUnit_iff_ne_zero.mpr (Matrix.det_vandermonde_ne_zero_iff.mpr hx)
  have hdetT : IsUnit (designMatrix xvals k)ᵀ.det := by
    rwa [Matrix.det_transpose]
  have hinv : designMatrix xvals k *
      (((designMatrix xvals k)ᵀ * designMatrix xvals k)⁻¹ *
        (designMatrix xvals k)ᵀ) = 1 := by
    rw [Matrix.mul_inv_rev, Matrix.mul_assoc, Matrix.nonsing_inv_mul _ hdetT,
      mul_one, Matrix.mul_nonsing_inv _ hdet]
  have hsolve : designMatrix xvals k *ᵥ polyfit xvals yvals k = yvals := by
    unfold polyfit householderQrSolve
    rw [Matrix.mulVec_mulVec, hinv, Matrix.one_mulVec]
  have hrow : polyeval (polyfit xvals yvals k) (xvals i) =
      (designMatrix xvals k *ᵥ polyfit xvals yvals k) i := by
    simp [polyeval, Matrix.mulVec, Matrix.dotProduct, designMatrix,
      Matrix.of_apply, designEntry_eq_pow, mul_comm]
  rw [hrow, hsolve]

/-- C8 witness: the line through (0, 2) and (1, 5) passes through (1, 5). -/
theorem c8_fit_exactness_witness :
    Function.Injective (![0, 1] : Fin 2 → ℝ) ∧
      polyeval (polyfit (![0, 1] : Fin 2 → ℝ) ![2, 5] 1)
        ((![0, 1] : Fin 2 → ℝ) 1) = (![2, 5] : Fin 2 → ℝ) 1 := by
  have hinj : Function.Injective (![0, 1] : Fin 2 → ℝ) := by
    intro a b hab
    fin_cases a <;> fin_cases b <;> simp_all
  exact ⟨hinj, c8_fit_exactness 1 ![0, 1] ![2, 5] hinj 1⟩
